import Mathlib

/-!
# A TCP client: connector, transmitter, receiver

Shallow embedding of `src/client.c` (the POSIX configuration, where the file itself defines
`SOCKET` as `int`, `INVALID_SOCKET` as `-1` and `closesocket` as `close`).

The program is sequential and talks to the operating system only through system calls.
Each function is embedded as a pure function that takes the results the system calls will
deliver and returns the value the C function returns together with the trace of the calls
it issued, in program order.  Diagnostic logging (`log_message`, standard error only) is
left out of the trace.

* The results of the calls are arbitrary: a theorem that needs a call to respect its
  contract (`send` and `recv` report no more bytes than they were given room for) says so
  in a hypothesis.
* The read loop of `receive_data` need not end.  It is run on a finite list of call results
  and reports `Outcome.pending` when the list ends before the loop does.
* The transfer buffer is a function from indices to bytes with explicit bound checks against
  `MAX_BUFFER`; an access outside the array is reported as `Outcome.outOfBounds`.
* `stdout` is a stream: `fwrite` hands bytes to the stream, and the stream hands them on to
  standard output in `fwrite` or in `fflush`, as the results of these calls say.  A run
  reports the bytes that have reached standard output (`out`) apart from the bytes the stream
  still holds (`held`).
-/

namespace ClientServer

/-! ## Constants of `client.c` -/

/-- One `char`. -/
abbrev Byte := Nat

/-- Line 11: `#define INVALID_SOCKET (-1)`. -/
def INVALID_SOCKET : Int := -1

/-- Line 24: `#define DEFAULT_PORT "60000"`. -/
def DEFAULT_PORT : String := "60000"

/-- Line 25: `#define DEFAULT_HOST "localhost"`. -/
def DEFAULT_HOST : String := "localhost"

/-- Line 26: `#define MAX_BUFFER 4096`. -/
def MAX_BUFFER : Nat := 4096

/-- Line 27: `#define CONNECT_TIMEOUT_SECONDS 5`. -/
def CONNECT_TIMEOUT_SECONDS : Int := 5

/-! ## System calls and traces -/

/-- The two socket options `set_socket_timeout` configures. -/
inductive SockOpt where
  | SO_RCVTIMEO
  | SO_SNDTIMEO
  deriving DecidableEq, Repr

/-- One call issued by the program, with the arguments that matter and the value it returned.
`cand` is the position, in the list `getaddrinfo` produced, of the entry `p` whose fields
the call was given. -/
inductive Event where
  | getaddrinfo (host port : String) (status : Int)
  | socket (cand : Nat) (ret : Int)
  | setsockopt (sock : Int) (opt : SockOpt) (tv_sec : Int) (ret : Int)
  | connect (sock : Int) (cand : Nat) (ret : Int)
  | closesocket (sock : Int)
  | freeaddrinfo
  | send (sock : Int) (len : Nat) (ret : Int)
  | recv (sock : Int) (cap : Nat) (ret : Int)
  | store (idx : Nat)
  | fwrite (count : Nat) (ret : Nat)
  | fflush (ret : Int)
  deriving DecidableEq, Repr

/-- What the system calls return when they are issued for one entry of the address list:
`socket`, the two `setsockopt` calls, and `connect`.  A field is consulted only if the
program really issues the call. -/
structure Candidate where
  sock : Int
  rcvtimeo : Int
  sndtimeo : Int
  conn : Int
  deriving DecidableEq, Repr

/-! ## Lines 52-63: `set_socket_timeout` -/

/-- `set_socket_timeout(sock, timeout_seconds)`; `r1` and `r2` are what the two `setsockopt`
calls return.  The `||` short-circuits: the second call is made only if the first did not
fail. -/
def set_socket_timeout (sock : Int) (timeout_seconds : Int) (r1 r2 : Int) : Int × List Event :=
  if r1 < 0 then
    (-1, [Event.setsockopt sock SockOpt.SO_RCVTIMEO timeout_seconds r1])
  else if r2 < 0 then
    (-1, [Event.setsockopt sock SockOpt.SO_RCVTIMEO timeout_seconds r1,
          Event.setsockopt sock SockOpt.SO_SNDTIMEO timeout_seconds r2])
  else
    (0, [Event.setsockopt sock SockOpt.SO_RCVTIMEO timeout_seconds r1,
         Event.setsockopt sock SockOpt.SO_SNDTIMEO timeout_seconds r2])

/-! ## Lines 66-111: `create_and_connect_socket` -/

/-- Put the calls `evs` in front of the trace of the rest of a run. -/
def emit (evs : List Event) (r : Int × List Event) : Int × List Event :=
  (r.1, evs ++ r.2)

/-- The `for` loop of lines 83-103.  The arguments are the position of `p` in the address
list, the entries from `p` on, and the current value of the variable `sock`; the result is
the value of `sock` when the loop is left, with the calls made.

* `continue` after a failed `socket` (line 87): `sock` is `INVALID_SOCKET`;
* `continue` after a failed `set_socket_timeout` (lines 91-92): the socket is closed and
  `sock` keeps its value;
* `break` on `connect(...) == 0` (line 97);
* otherwise (lines 100-102) the socket is closed and `sock` is set to `INVALID_SOCKET`. -/
def connect_loop : Nat → List Candidate → Int → Int × List Event
  | _, [], sock => (sock, [])
  | i, p :: rest, _ =>
    let sock := p.sock
    if sock = INVALID_SOCKET then
      emit [Event.socket i sock] (connect_loop (i + 1) rest sock)
    else
      let t := set_socket_timeout sock CONNECT_TIMEOUT_SECONDS p.rcvtimeo p.sndtimeo
      if t.1 < 0 then
        emit (Event.socket i sock :: t.2 ++ [Event.closesocket sock])
          (connect_loop (i + 1) rest sock)
      else if p.conn = 0 then
        (sock, Event.socket i sock :: t.2 ++ [Event.connect sock i p.conn])
      else
        emit (Event.socket i sock :: t.2 ++ [Event.connect sock i p.conn, Event.closesocket sock])
          (connect_loop (i + 1) rest INVALID_SOCKET)

/-- `create_and_connect_socket(host, port)`.  `status` is what `getaddrinfo` returns and
`res` the address list it produced. -/
def create_and_connect_socket (host port : String) (status : Int) (res : List Candidate) :
    Int × List Event :=
  if status ≠ 0 then
    (INVALID_SOCKET, [Event.getaddrinfo host port status])
  else
    let r := connect_loop 0 res INVALID_SOCKET
    (r.1, Event.getaddrinfo host port status :: r.2 ++ [Event.freeaddrinfo])

/-! ## Lines 114-129: `send_data` -/

/-- `strlen`: the number of bytes in front of the first NUL. -/
def strlen (data : List Byte) : Nat :=
  (data.takeWhile (fun b => b ≠ 0)).length

/-- `send_data(sock, data)`; `sent` is what the one `send` call returns.  At the second test
`sent` is not negative, so the conversion `(size_t)sent` keeps its value. -/
def send_data (sock : Int) (data : List Byte) (sent : Int) : Int × List Event :=
  let len := strlen data
  if sent < 0 then
    (-1, [Event.send sock len sent])
  else if sent < (len : Int) then
    (-1, [Event.send sock len sent])
  else
    (0, [Event.send sock len sent])

/-! ## Lines 132-152: `receive_data` -/

/-- What one `recv` call delivers: `bytes data` when it returns `data.length` and has put
`data` at the start of the buffer (`bytes []` is the peer closing the stream), `fail` when
it returns `-1`. -/
inductive RecvOutcome where
  | bytes (data : List Byte)
  | fail
  deriving DecidableEq, Repr

/-- The value `recv` returns. -/
def RecvOutcome.received : RecvOutcome → Int
  | RecvOutcome.bytes data => (data.length : Int)
  | RecvOutcome.fail => -1

/-- The bytes `recv` put in the buffer. -/
def RecvOutcome.data : RecvOutcome → List Byte
  | RecvOutcome.bytes data => data
  | RecvOutcome.fail => []

/-- What one `fflush(stdout)` call does to the bytes the stream is holding: `done` when it
returns 0 and all of them have reached standard output; `failed passed kept` when it returns
`EOF` after the first `passed` of them have reached standard output, the others staying in
the stream if `kept` holds and being dropped if not. -/
inductive FlushOutcome where
  | done
  | failed (passed : Nat) (kept : Bool)
  deriving DecidableEq, Repr

/-- The value `fflush` returns. -/
def FlushOutcome.ret : FlushOutcome → Int
  | FlushOutcome.done => 0
  | FlushOutcome.failed _ _ => -1

/-- The bytes that reach standard output in the `fflush` call, out of the bytes `held` the
stream is holding. -/
def FlushOutcome.passes : FlushOutcome → List Byte → List Byte
  | FlushOutcome.done, held => held
  | FlushOutcome.failed passed _, held => held.take passed

/-- The bytes the stream is holding after the `fflush` call. -/
def FlushOutcome.keeps : FlushOutcome → List Byte → List Byte
  | FlushOutcome.done, _ => []
  | FlushOutcome.failed passed kept, held => if kept then held.drop passed else []

/-- The results of the calls of one turn of the read loop:
* `recv`: what `recv` delivers;
* `written`: what `fwrite` returns if it is called for that chunk;
* `passed`: how many of the bytes the stream then holds it hands on to standard output
  before `fwrite` returns (none when `stdout` only buffers, all when it is unbuffered);
* `flush`: what `fflush` does if it is called in that turn. -/
structure ReadStep where
  recv : RecvOutcome
  written : Nat
  passed : Nat := 0
  flush : FlushOutcome := FlushOutcome.done
  deriving DecidableEq, Repr

/-- How a run of a function ends. -/
inductive Outcome where
  /-- The function returned this value. -/
  | returned (v : Int)
  /-- The function indexed an array outside its bounds. -/
  | outOfBounds
  /-- The supplied system-call results ran out while the function was still looping. -/
  | pending
  deriving DecidableEq, Repr

/-- Result of a run, the bytes that have reached standard output, the bytes the stream
`stdout` has accepted and is still holding, and the calls made. -/
structure Run where
  result : Outcome
  out : List Byte
  held : List Byte
  trace : List Event
  deriving DecidableEq, Repr

/-- Put output and calls in front of the rest of a run. -/
def Run.after (out : List Byte) (evs : List Event) (r : Run) : Run :=
  { result := r.result, out := out ++ r.out, held := r.held, trace := evs ++ r.trace }

/-- Memory content after `recv` copied `data` to the start of `buffer`. -/
def fill (buffer : Nat → Byte) (data : List Byte) : Nat → Byte :=
  fun i => data.getD i (buffer i)

/-- Memory content after `buffer[idx] = v`. -/
def store (buffer : Nat → Byte) (idx : Nat) (v : Byte) : Nat → Byte :=
  fun i => if i = idx then v else buffer i

/-- The `count` bytes `fwrite(buffer, 1, count, stdout)` reads. -/
def readBytes (buffer : Nat → Byte) (count : Nat) : List Byte :=
  (List.range count).map buffer

/-- The `while` loop of lines 136-143 and the tests after it.  `buffer` is the content of the
array `char buffer[MAX_BUFFER]`; an index is valid when it is below `MAX_BUFFER`.  Every
`recv` asks for `sizeof(buffer) - 1` bytes.  `held` are the bytes the stream `stdout` is
holding.

`fwrite` returning `w` means that the stream has accepted the first `w` bytes of the chunk,
behind the bytes it already held; bytes reach standard output only when the stream hands
them on, in `fwrite` (`passed`) or in `fflush` (line 142), whose result the code does not
look at. -/
def receive_loop (sock : Int) : List ReadStep → (Nat → Byte) → List Byte → Run
  | [], _, held => { result := Outcome.pending, out := [], held := held, trace := [] }
  | s :: rest, buffer, held =>
    let received := s.recv.received
    let call := Event.recv sock (MAX_BUFFER - 1) received
    if 0 < received then
      let n := received.toNat
      if MAX_BUFFER ≤ n then
        { result := Outcome.outOfBounds, out := [], held := held, trace := [call] }
      else
        let buffer1 := store (fill buffer s.recv.data) n 0
        let w := s.written
        let stream := held ++ (readBytes buffer1 n).take w
        let held1 := stream.drop s.passed
        if w ≠ n then
          { result := Outcome.returned (-1), out := stream.take s.passed, held := held1,
            trace := [call, Event.store n, Event.fwrite n w] }
        else
          Run.after (stream.take s.passed ++ s.flush.passes held1)
            [call, Event.store n, Event.fwrite n w, Event.fflush s.flush.ret]
            (receive_loop sock rest buffer1 (s.flush.keeps held1))
    else if received < 0 then
      { result := Outcome.returned (-1), out := [], held := held, trace := [call] }
    else
      { result := Outcome.returned 0, out := [], held := held, trace := [call] }

/-- `receive_data(sock)`; `buffer` is the indeterminate initial content of the local array
and `reads` the results of the successive `recv`, `fwrite` and `fflush` calls.  The stream
`stdout` holds nothing at the call: `main` calls `receive_data` once and nothing is written
to `stdout` before (`log_message` writes to `stderr`). -/
def receive_data (sock : Int) (buffer : Nat → Byte) (reads : List ReadStep) : Run :=
  receive_loop sock reads buffer []

/-! ## Lines 154-196: `main` -/

/-- Everything the outside world contributes to one run. -/
structure Env where
  /-- The argument vector, program name first. -/
  argv : List String
  /-- What `getaddrinfo` returns. -/
  gai_status : Int
  /-- The address list `getaddrinfo` produced, with the call results for each entry. -/
  res : List Candidate
  /-- What `send` returns. -/
  sent : Int
  /-- Initial content of the transfer buffer. -/
  buffer : Nat → Byte
  /-- What the `recv` and `fwrite` calls return, in order. -/
  reads : List ReadStep

/-- The bytes of `"arafat shaik\r\n"`. -/
def message_text : List Byte :=
  [97, 114, 97, 102, 97, 116, 32, 115, 104, 97, 105, 107, 13, 10]

/-- The array `message` after the `snprintf` of line 176: the text and its terminator. -/
def message : List Byte := message_text ++ [0]

/-- The label `cleanup:` (lines 188-195): close the socket unless `sock` is
`INVALID_SOCKET`, and return `ret`. -/
def cleanup (sock : Int) (ret : Int) (out held : List Byte) (trace : List Event) : Run :=
  if sock ≠ INVALID_SOCKET then
    { result := Outcome.returned ret, out := out, held := held,
      trace := trace ++ [Event.closesocket sock] }
  else
    { result := Outcome.returned ret, out := out, held := held, trace := trace }

/-- Line 155: `(argc > 1) ? argv[1] : DEFAULT_HOST`. -/
def Env.host (env : Env) : String := env.argv.getD 1 DEFAULT_HOST

/-- Line 156: `(argc > 2) ? argv[2] : DEFAULT_PORT`. -/
def Env.port (env : Env) : String := env.argv.getD 2 DEFAULT_PORT

/-- `main(argc, argv)`.  The bytes the stream `stdout` still holds when `main` returns are
left to the flush the C runtime makes at exit, which is not part of `main`. -/
def main (env : Env) : Run :=
  let c := create_and_connect_socket env.host env.port env.gai_status env.res
  let sock := c.1
  if sock = INVALID_SOCKET then
    cleanup sock 1 [] [] c.2
  else
    let s := send_data sock message env.sent
    if s.1 < 0 then
      cleanup sock 1 [] [] (c.2 ++ s.2)
    else
      let r := receive_data sock env.buffer env.reads
      match r.result with
      | Outcome.returned v =>
        if v < 0 then cleanup sock 1 r.out r.held (c.2 ++ s.2 ++ r.trace)
        else cleanup sock 0 r.out r.held (c.2 ++ s.2 ++ r.trace)
      | Outcome.outOfBounds =>
        { result := Outcome.outOfBounds, out := r.out, held := r.held,
          trace := c.2 ++ s.2 ++ r.trace }
      | Outcome.pending =>
        { result := Outcome.pending, out := r.out, held := r.held,
          trace := c.2 ++ s.2 ++ r.trace }

/-! ## The descriptor table -/

/-- The sockets of the process, as the operating system sees them.  A socket is named by the
position of the address entry it was created for together with its handle. -/
structure FdTable where
  /-- Sockets that are open. -/
  opened : List (Nat × Int)
  /-- Sockets that have been closed, one entry for each close. -/
  closed : List (Nat × Int)
  /-- Number of `closesocket` calls on a handle that was not open. -/
  stray : Nat
  deriving DecidableEq, Repr

/-- Effect of one call on the descriptor table: a `socket` call that succeeds opens a socket,
`closesocket` closes the open socket with that handle, and no other call opens or closes. -/
def FdTable.step (t : FdTable) : Event → FdTable
  | Event.socket cand ret =>
    if ret = INVALID_SOCKET then t else { t with opened := t.opened ++ [(cand, ret)] }
  | Event.closesocket sock =>
    match t.opened.find? (fun s => s.2 = sock) with
    | some s => { t with opened := t.opened.erase s, closed := t.closed ++ [s] }
    | none => { t with stray := t.stray + 1 }
  | _ => t

/-- Effect of a trace on the descriptor table. -/
def FdTable.run (t : FdTable) (trace : List Event) : FdTable :=
  trace.foldl FdTable.step t

/-- The table of a process that has no socket yet. -/
def FdTable.empty : FdTable := { opened := [], closed := [], stray := 0 }

/-! ## Vocabulary of the statements -/

/-- The entry succeeds at socket creation, at timeout configuration and at `connect`. -/
def Candidate.connects (c : Candidate) : Prop :=
  c.sock ≠ INVALID_SOCKET ∧
    (set_socket_timeout c.sock CONNECT_TIMEOUT_SECONDS c.rcvtimeo c.sndtimeo).1 = 0 ∧
    c.conn = 0

instance (c : Candidate) : Decidable c.connects := by
  unfold Candidate.connects; infer_instance

/-- The positions of the address entries for which `socket` was called, in call order. -/
def socketCalls : List Event → List Nat
  | [] => []
  | Event.socket cand _ :: rest => cand :: socketCalls rest
  | _ :: rest => socketCalls rest

/-- The number of `recv` calls in a trace. -/
def recvCalls : List Event → Nat
  | [] => 0
  | Event.recv _ _ _ :: rest => recvCalls rest + 1
  | _ :: rest => recvCalls rest

/-- The number of `send` calls in a trace. -/
def sendCalls : List Event → Nat
  | [] => 0
  | Event.send _ _ _ :: rest => sendCalls rest + 1
  | _ :: rest => sendCalls rest

/-- One turn of the connect loop, on its own. -/
def attempt (i : Nat) (p : Candidate) : Int × List Event :=
  connect_loop i [p] INVALID_SOCKET

/-- The sockets the loop creates for the entries `pre`, the first of which has position `i`:
one for every entry whose `socket` call succeeds. -/
def created (i : Nat) : List Candidate → List (Nat × Int)
  | [] => []
  | p :: rest =>
    if p.sock = INVALID_SOCKET then created (i + 1) rest
    else (i, p.sock) :: created (i + 1) rest

/-- The read delivered a non-empty chunk and `fwrite` returned its full length. -/
def ReadStep.forwarded (s : ReadStep) : Prop :=
  0 < s.recv.received ∧ (s.written : Int) = s.recv.received

instance (s : ReadStep) : Decidable s.forwarded := by
  unfold ReadStep.forwarded; infer_instance

/-- The bytes that reach standard output in a turn in which `fwrite` accepts the whole
chunk, when the stream held `held` before: those handed on in `fwrite` and in `fflush`. -/
def ReadStep.outFull (s : ReadStep) (held : List Byte) : List Byte :=
  (held ++ s.recv.data).take s.passed ++ s.flush.passes ((held ++ s.recv.data).drop s.passed)

/-- The bytes the stream holds after such a turn. -/
def ReadStep.heldFull (s : ReadStep) (held : List Byte) : List Byte :=
  s.flush.keeps ((held ++ s.recv.data).drop s.passed)

/-- The reads of a peer that sends `chunks` one `recv` at a time, each written in full and
flushed. -/
def forwardedReads (chunks : List (List Byte)) : List ReadStep :=
  chunks.map (fun c => { recv := RecvOutcome.bytes c, written := c.length })

/-- The calls that `create_and_connect_socket` makes. -/
def Event.byConnector : Event → Bool
  | Event.getaddrinfo _ _ _ => true
  | Event.socket _ _ => true
  | Event.setsockopt _ _ _ _ => true
  | Event.connect _ _ _ => true
  | Event.closesocket _ => true
  | Event.freeaddrinfo => true
  | _ => false

/-- The calls and buffer accesses that `receive_data` makes. -/
def Event.byReceiver : Event → Bool
  | Event.recv _ _ _ => true
  | Event.store _ => true
  | Event.fwrite _ _ => true
  | Event.fflush _ => true
  | _ => false

/-! ## Sample inputs -/

/-- An address list whose entries fail in each of the three ways before one connects; the
system hands out descriptor 3 again after each close. -/
def demoFailing : List Candidate :=
  [{ sock := 3, rcvtimeo := 0, sndtimeo := 0, conn := -1 },
   { sock := -1, rcvtimeo := 0, sndtimeo := 0, conn := 0 },
   { sock := 3, rcvtimeo := 0, sndtimeo := -1, conn := 0 }]

/-- An entry for which every call succeeds. -/
def demoConnecting : Candidate := { sock := 3, rcvtimeo := 0, sndtimeo := 0, conn := 0 }

/-- An entry whose socket is created and whose first `setsockopt` fails. -/
def demoTimeoutFails : Candidate := { sock := 3, rcvtimeo := -1, sndtimeo := 0, conn := 0 }

/-- A run on one address entry whose timeout configuration fails; the later `send` on the
closed descriptor fails. -/
def demoClosedHandleEnv : Env :=
  { argv := ["client"], gai_status := 0, res := [demoTimeoutFails], sent := -1,
    buffer := fun _ => 0, reads := [] }

/-- Reads that end a run of forwarded chunks with a short write. -/
def demoShortWrite : List ReadStep :=
  [{ recv := RecvOutcome.bytes [72, 69], written := 2 },
   { recv := RecvOutcome.bytes [76, 76, 79], written := 1 },
   { recv := RecvOutcome.bytes [], written := 0 }]

/-- Reads in which the stream accepts the chunk `HELLO\n` in full, the `fflush` behind it
fails without passing a byte on, as on a full device, and the peer then closes. -/
def demoFlushFails : List ReadStep :=
  [{ recv := RecvOutcome.bytes [72, 69, 76, 76, 79, 10], written := 6, passed := 0,
     flush := FlushOutcome.failed 0 false },
   { recv := RecvOutcome.bytes [], written := 0 }]

/-- A run that connects, sends the message and gets the reads `demoFlushFails`. -/
def demoFlushFailsEnv : Env :=
  { argv := ["client"], gai_status := 0, res := [demoConnecting], sent := 14,
    buffer := fun _ => 0, reads := demoFlushFails }

/-- An address list for which `getaddrinfo` fails. -/
def demoUnresolvedEnv : Env :=
  { argv := ["client", "no.such.host"], gai_status := -2, res := [], sent := 14,
    buffer := fun _ => 0, reads := [] }

/-! ## The connect loop, one turn at a time; claim C4 -/

theorem socketCalls_append (a b : List Event) :
    socketCalls (a ++ b) = socketCalls a ++ socketCalls b := by
  induction a with
  | nil => rfl
  | cons e a ih => cases e <;> simp [socketCalls, ih]

theorem connect_loop_cons (i : Nat) (p : Candidate) (rest : List Candidate) (s : Int) :
    connect_loop i (p :: rest) s =
      if p.connects then attempt i p
      else emit (attempt i p).2 (connect_loop (i + 1) rest (attempt i p).1) := by
  simp only [attempt, connect_loop, Candidate.connects, set_socket_timeout, emit]
  split_ifs <;> simp_all

theorem attempt_fst_of_connects (i : Nat) (p : Candidate) (hp : p.connects) :
    (attempt i p).1 = p.sock := by
  obtain ⟨h1, h2, h3⟩ := hp
  simp [attempt, connect_loop, h1, h2, h3]

theorem socketCalls_attempt (i : Nat) (p : Candidate) : socketCalls (attempt i p).2 = [i] := by
  simp only [attempt, connect_loop, set_socket_timeout, emit]
  split_ifs <;> simp [socketCalls]

theorem socket_mem_attempt {i j : Nat} {p : Candidate} {h : Int}
    (hm : Event.socket j h ∈ (attempt i p).2) : j = i ∧ h = p.sock := by
  simp only [attempt, connect_loop, set_socket_timeout, emit] at hm
  split_ifs at hm <;> simp_all

theorem connect_mem_attempt {i j : Nat} {p : Candidate} {h r : Int}
    (hm : Event.connect h j r ∈ (attempt i p).2) : j = i ∧ h = p.sock ∧ r = p.conn ∧
      p.sock ≠ INVALID_SOCKET ∧
      (set_socket_timeout p.sock CONNECT_TIMEOUT_SECONDS p.rcvtimeo p.sndtimeo).1 = 0 := by
  simp only [attempt, connect_loop, set_socket_timeout, emit] at hm ⊢
  split_ifs at hm ⊢ <;> simp_all

theorem setsockopt_mem_attempt {i : Nat} {p : Candidate} {h t r : Int} {o : SockOpt}
    (hm : Event.setsockopt h o t r ∈ (attempt i p).2) :
    Event.socket i h ∈ (attempt i p).2 := by
  simp only [attempt, connect_loop, set_socket_timeout, emit] at hm ⊢
  split_ifs at hm ⊢ <;> simp_all <;> rcases hm with hm | hm <;> exact hm.1

theorem connect_loop_first_connecting (pre post : List Candidate) (c : Candidate)
    (hpre : ∀ p ∈ pre, ¬ p.connects) (hc : c.connects) (i : Nat) (s : Int) :
    (connect_loop i (pre ++ c :: post) s).1 = c.sock ∧
      socketCalls (connect_loop i (pre ++ c :: post) s).2 = List.range' i (pre.length + 1) ∧
      Event.socket (i + pre.length) c.sock ∈ (connect_loop i (pre ++ c :: post) s).2 ∧
      Event.connect c.sock (i + pre.length) 0 ∈ (connect_loop i (pre ++ c :: post) s).2 ∧
      (∀ h j r, Event.connect h j r ∈ (connect_loop i (pre ++ c :: post) s).2 →
        j ≤ i + pre.length) ∧
      (∀ h o t r, Event.setsockopt h o t r ∈ (connect_loop i (pre ++ c :: post) s).2 →
        ∃ j, j ≤ i + pre.length ∧
          Event.socket j h ∈ (connect_loop i (pre ++ c :: post) s).2) ∧
      connect_loop i (pre ++ c :: post) s = connect_loop i (pre ++ [c]) s := by
  induction pre generalizing i s with
  | nil =>
    have hs := attempt_fst_of_connects i c hc
    simp only [List.nil_append, connect_loop_cons, hc, if_true, List.length_nil, Nat.add_zero,
      Nat.zero_add, List.range'_one]
    refine ⟨hs, socketCalls_attempt i c, ?_, ?_, ?_, ?_, trivial⟩
    · obtain ⟨h1, h2, h3⟩ := hc
      simp [attempt, connect_loop, h1, h2, h3]
    · obtain ⟨h1, h2, h3⟩ := hc
      simp [attempt, connect_loop, h1, h2, h3]
    · intro h j r hm
      exact (connect_mem_attempt hm).1.le
    · intro h o t r hm
      exact ⟨i, le_rfl, setsockopt_mem_attempt hm⟩
  | cons p pre ih =>
    have hp : ¬ p.connects := hpre p (List.mem_cons_self _ _)
    obtain ⟨ih1, ih2, ih3, ih4, ih5, ih6, ih7⟩ :=
      ih (fun q hq => hpre q (List.mem_cons_of_mem _ hq)) (i + 1) (attempt i p).1
    have e1 : i + 1 + pre.length = i + (pre.length + 1) := by omega
    rw [e1] at ih3 ih4 ih5 ih6
    simp only [List.cons_append, connect_loop_cons, hp, if_false, emit, List.length_cons,
      socketCalls_append, socketCalls_attempt, List.mem_append]
    refine ⟨ih1, ?_, Or.inr ih3, Or.inr ih4, ?_, ?_, ?_⟩
    · rw [ih2]; rfl
    · rintro h j r (hm | hm)
      · have := (connect_mem_attempt hm).1
        omega
      · exact ih5 h j r hm
    · rintro h o t r (hm | hm)
      · exact ⟨i, by omega, Or.inl (setsockopt_mem_attempt hm)⟩
      · obtain ⟨j, hj, hmem⟩ := ih6 h o t r hm
        exact ⟨j, hj, Or.inr hmem⟩
    · rw [ih7]

theorem FdTable.run_append (t : FdTable) (a b : List Event) :
    t.run (a ++ b) = (t.run a).run b := by
  simp [FdTable.run, List.foldl_append]

theorem FdTable.run_attempt_connects (t : FdTable) (i : Nat) (p : Candidate)
    (ht : t.opened = []) (hp : p.connects) :
    t.run (attempt i p).2 = { t with opened := [(i, p.sock)] } := by
  obtain ⟨h1, h2, h3⟩ := hp
  simp only [set_socket_timeout] at h2
  simp only [attempt, connect_loop, set_socket_timeout, emit]
  split_ifs at h2 ⊢ <;> simp_all [FdTable.run, FdTable.step]

theorem FdTable.run_attempt_fails (t : FdTable) (i : Nat) (p : Candidate)
    (ht : t.opened = []) (hp : ¬ p.connects) :
    t.run (attempt i p).2 = { t with closed := t.closed ++ created i [p] } := by
  obtain ⟨o, c, n⟩ := t
  simp only at ht
  subst ht
  simp only [Candidate.connects, set_socket_timeout] at hp
  simp only [attempt, connect_loop, set_socket_timeout, emit, created]
  split_ifs at hp ⊢ <;> simp_all [FdTable.run, FdTable.step]

theorem mem_created {i j : Nat} {h : Int} {pre : List Candidate}
    (hm : (j, h) ∈ created i pre) : i ≤ j ∧ j < i + pre.length := by
  induction pre generalizing i with
  | nil => simp [created] at hm
  | cons p pre ih =>
    simp only [created] at hm
    split_ifs at hm
    · have := ih hm
      simp only [List.length_cons]
      omega
    · rcases List.mem_cons.1 hm with hm | hm
      · cases hm
        simp
      · have := ih hm
        simp only [List.length_cons]
        omega

theorem created_cons (i : Nat) (p : Candidate) (pre : List Candidate) :
    created i (p :: pre) = created i [p] ++ created (i + 1) pre := by
  simp only [created]
  split_ifs <;> simp

theorem socket_mem_connect_loop {i j : Nat} {h s : Int} {res : List Candidate}
    (hm : Event.socket j h ∈ (connect_loop i res s).2) : i ≤ j := by
  induction res generalizing i s with
  | nil => simp [connect_loop] at hm
  | cons p res ih =>
    rw [connect_loop_cons] at hm
    split_ifs at hm
    · exact (socket_mem_attempt hm).1.ge
    · simp only [emit, List.mem_append] at hm
      rcases hm with hm | hm
      · exact (socket_mem_attempt hm).1.ge
      · have := ih hm
        omega

theorem FdTable.run_connect_loop (pre post : List Candidate) (c : Candidate)
    (hpre : ∀ p ∈ pre, ¬ p.connects) (hc : c.connects) (i : Nat) (s : Int) (t : FdTable)
    (ht : t.opened = []) :
    t.run (connect_loop i (pre ++ c :: post) s).2 =
      { t with opened := [(i + pre.length, c.sock)], closed := t.closed ++ created i pre } := by
  induction pre generalizing i s t with
  | nil =>
    simp only [List.nil_append, connect_loop_cons, hc, if_true, created, List.append_nil,
      List.length_nil, Nat.add_zero]
    exact FdTable.run_attempt_connects t i c ht hc
  | cons p pre ih =>
    have hp : ¬ p.connects := hpre p (List.mem_cons_self _ _)
    simp only [List.cons_append, connect_loop_cons, hp, if_false, emit, FdTable.run_append,
      FdTable.run_attempt_fails t i p ht hp]
    rw [ih (fun q hq => hpre q (List.mem_cons_of_mem _ hq)) (i + 1) _
      { opened := t.opened, closed := t.closed ++ created i [p], stray := t.stray } ht,
      created_cons i p pre]
    simp only [List.length_cons, List.append_assoc]
    congr 3
    omega

theorem exists_first_connecting {i : Nat} {s h : Int} {j : Nat} {res : List Candidate}
    (hm : Event.connect h j 0 ∈ (connect_loop i res s).2) :
    ∃ pre c post, res = pre ++ c :: post ∧ (∀ p ∈ pre, ¬ p.connects) ∧ c.connects := by
  induction res generalizing i s with
  | nil => simp [connect_loop] at hm
  | cons p res ih =>
    by_cases hp : p.connects
    · exact ⟨[], p, res, rfl, by simp, hp⟩
    · rw [connect_loop_cons, if_neg hp] at hm
      simp only [emit, List.mem_append] at hm
      rcases hm with hm | hm
      · obtain ⟨-, -, h3, h4, h5⟩ := connect_mem_attempt hm
        exact absurd ⟨h4, h5, h3.symm⟩ hp
      · obtain ⟨pre, c, post, rfl, h1, h2⟩ := ih hm
        refine ⟨p :: pre, c, post, rfl, ?_, h2⟩
        intro q hq
        rcases List.mem_cons.1 hq with rfl | hq
        · exact hp
        · exact h1 q hq

theorem count_created_of_lt {i j : Nat} {h : Int} {pre : List Candidate} (hj : j < i) :
    (created i pre).count (j, h) = 0 := by
  rw [List.count_eq_zero]
  intro hm
  have := (mem_created hm).1
  omega

theorem count_created_of_ge {i j : Nat} {h : Int} {pre : List Candidate}
    (hj : i + pre.length ≤ j) : (created i pre).count (j, h) = 0 := by
  rw [List.count_eq_zero]
  intro hm
  have := (mem_created hm).2
  omega

theorem count_created_socket (pre post : List Candidate) (c : Candidate)
    (hpre : ∀ p ∈ pre, ¬ p.connects) (hc : c.connects) (i : Nat) (s : Int) (j : Nat) (h : Int)
    (hm : Event.socket j h ∈ (connect_loop i (pre ++ c :: post) s).2)
    (hh : h ≠ INVALID_SOCKET) (hne : (j, h) ≠ (i + pre.length, c.sock)) :
    (created i pre).count (j, h) = 1 := by
  induction pre generalizing i s with
  | nil =>
    simp only [List.nil_append, connect_loop_cons, hc, if_true] at hm
    obtain ⟨rfl, rfl⟩ := socket_mem_attempt hm
    simp at hne
  | cons p pre ih =>
    have hp : ¬ p.connects := hpre p (List.mem_cons_self _ _)
    simp only [List.cons_append, connect_loop_cons, hp, if_false, emit, List.mem_append] at hm
    rcases hm with hm | hm
    · obtain ⟨rfl, rfl⟩ := socket_mem_attempt hm
      simp only [created, if_neg hh, List.count_cons_self]
      rw [count_created_of_lt (Nat.lt_succ_self _)]
    · have hj : i + 1 ≤ j := socket_mem_connect_loop hm
      have e1 : i + 1 + pre.length = i + (p :: pre).length := by
        simp only [List.length_cons]; omega
      have := ih (fun q hq => hpre q (List.mem_cons_of_mem _ hq)) (i + 1) _ hm (by rwa [e1])
      rw [created_cons, List.count_append, this]
      have : (created i [p]).count (j, h) = 0 := count_created_of_ge (by simp; omega)
      omega

/-- C4.  When a `connect` call of `create_and_connect_socket` returned 0, the descriptor table
after the call holds exactly one open socket, the returned one, which has never been closed;
no `closesocket` hit a handle that was not open; and every other socket created during the
call has been closed exactly once. -/
theorem create_and_connect_socket_leaves_one_socket_open (host port : String) (status : Int)
    (res : List Candidate)
    (hconn : ∃ h j, Event.connect h j 0 ∈ (create_and_connect_socket host port status res).2) :
    ∃ k, (FdTable.empty.run (create_and_connect_socket host port status res).2).opened =
          [(k, (create_and_connect_socket host port status res).1)] ∧
      (FdTable.empty.run (create_and_connect_socket host port status res).2).stray = 0 ∧
      (FdTable.empty.run (create_and_connect_socket host port status res).2).closed.count
          (k, (create_and_connect_socket host port status res).1) = 0 ∧
      ∀ j h, Event.socket j h ∈ (create_and_connect_socket host port status res).2 →
        h ≠ INVALID_SOCKET → (j, h) ≠ (k, (create_and_connect_socket host port status res).1) →
        (FdTable.empty.run (create_and_connect_socket host port status res).2).closed.count
          (j, h) = 1 := by
  obtain ⟨h0, j0, hm⟩ := hconn
  by_cases hs : status = 0
  · subst hs
    simp only [create_and_connect_socket, ne_eq, not_true_eq_false, if_false, List.mem_cons,
      List.mem_append, List.mem_singleton, false_or, or_false, List.not_mem_nil,
      reduceCtorEq] at hm ⊢
    obtain ⟨pre, c, post, rfl, hpre, hc⟩ := exists_first_connecting hm
    have hrun : FdTable.empty.run (Event.getaddrinfo host port 0 ::
        (connect_loop 0 (pre ++ c :: post) INVALID_SOCKET).2 ++ [Event.freeaddrinfo]) =
        { opened := [(pre.length, c.sock)], closed := created 0 pre, stray := 0 } := by
      have := FdTable.run_connect_loop pre post c hpre hc 0 INVALID_SOCKET FdTable.empty rfl
      rw [← List.singleton_append, List.append_assoc, FdTable.run_append, FdTable.run_append,
        show FdTable.empty.run [Event.getaddrinfo host port 0] = FdTable.empty from rfl, this]
      simp [FdTable.empty, FdTable.run, FdTable.step]
    rw [hrun, (connect_loop_first_connecting pre post c hpre hc 0 INVALID_SOCKET).1]
    refine ⟨pre.length, rfl, rfl, count_created_of_ge (by simp), ?_⟩
    intro j h hmem hh hne
    have := count_created_socket pre post c hpre hc 0 INVALID_SOCKET j h hmem hh
      (by simpa using hne)
    exact this
  · simp [create_and_connect_socket, hs] at hm

/-- The value of `sock` after one turn on an entry that does not connect: the handle of the
socket if it was closed for a failed timeout configuration, `INVALID_SOCKET` otherwise. -/
theorem attempt_fst_of_not_connects (i : Nat) (p : Candidate) (hp : ¬ p.connects) :
    (attempt i p).1 =
      if p.sock ≠ INVALID_SOCKET ∧
          (set_socket_timeout p.sock CONNECT_TIMEOUT_SECONDS p.rcvtimeo p.sndtimeo).1 < 0
      then p.sock else INVALID_SOCKET := by
  simp only [Candidate.connects, set_socket_timeout] at hp
  simp only [attempt, connect_loop, set_socket_timeout, emit]
  split_ifs at hp ⊢ <;> simp_all

/-- When no entry connects, the loop ends with `INVALID_SOCKET` unless the last entry failed
at timeout configuration, in which case it ends with the handle of that closed socket. -/
theorem connect_loop_exhausted (res : List Candidate) (hall : ∀ p ∈ res, ¬ p.connects)
    (i : Nat) (s : Int) :
    (connect_loop i res s).1 =
      match res.getLast? with
      | none => s
      | some p =>
        if p.sock ≠ INVALID_SOCKET ∧
            (set_socket_timeout p.sock CONNECT_TIMEOUT_SECONDS p.rcvtimeo p.sndtimeo).1 < 0
        then p.sock else INVALID_SOCKET := by
  induction res generalizing i s with
  | nil => rfl
  | cons p rest ih =>
    have hp : ¬ p.connects := hall p (List.mem_cons_self _ _)
    rw [connect_loop_cons, if_neg hp]
    simp only [emit]
    rw [ih (fun q hq => hall q (List.mem_cons_of_mem _ hq))]
    cases rest with
    | nil => exact attempt_fst_of_not_connects i p hp
    | cons q rest =>
      rw [List.getLast?_cons_cons, List.getLast?_eq_getLast _ (List.cons_ne_nil q rest)]

/-! ## The connector: claims C1, C2, C3 -/

/-- C1 (evaluation at the failing input).  On an address list with the single entry
`demoTimeoutFails`, which fails at timeout configuration, no candidate connects and the list
is exhausted, yet `create_and_connect_socket` returns the handle 3, which it has already
closed, and not `INVALID_SOCKET`. -/
theorem create_and_connect_socket_returns_closed_handle :
    (∀ c ∈ [demoTimeoutFails], ¬ c.connects) ∧
      (set_socket_timeout demoTimeoutFails.sock CONNECT_TIMEOUT_SECONDS
        demoTimeoutFails.rcvtimeo demoTimeoutFails.sndtimeo).1 = -1 ∧
      (create_and_connect_socket DEFAULT_HOST DEFAULT_PORT 0 [demoTimeoutFails]).1 = 3 ∧
      (create_and_connect_socket DEFAULT_HOST DEFAULT_PORT 0 [demoTimeoutFails]).1
        ≠ INVALID_SOCKET ∧
      Event.closesocket 3 ∈
        (create_and_connect_socket DEFAULT_HOST DEFAULT_PORT 0 [demoTimeoutFails]).2 := by
  decide

/-- C2 (evaluation at the failing input).  In the run `demoClosedHandleEnv` the connector
returns the handle 3, which is not `INVALID_SOCKET`; `main` exits with status 1 and the
handle 3 is passed to `closesocket` twice, once in the connector and once at `cleanup`, the
second time when no socket with that handle is open. -/
theorem main_closes_returned_handle_twice :
    (create_and_connect_socket demoClosedHandleEnv.host demoClosedHandleEnv.port
        demoClosedHandleEnv.gai_status demoClosedHandleEnv.res).1 = 3 ∧
      (3 : Int) ≠ INVALID_SOCKET ∧
      (main demoClosedHandleEnv).result = Outcome.returned 1 ∧
      (main demoClosedHandleEnv).trace.count (Event.closesocket 3) = 2 ∧
      (FdTable.empty.run (main demoClosedHandleEnv).trace).stray = 1 := by
  decide

/-- C3.  If the address list is `pre ++ c :: post`, where `c` succeeds at socket creation,
timeout configuration and connect and no entry of `pre` does, then
`create_and_connect_socket` returns the socket created for `c`, whose `connect` returned 0;
`socket` was called once for each of the positions `0, ..., pre.length`, in that order, and
for no later one; no `connect` carries a later position; every `setsockopt` is on a socket
created for one of these positions; and the whole run is the same as on `pre ++ [c]`. -/
theorem create_and_connect_socket_stops_at_first_success (host port : String)
    (pre post : List Candidate) (c : Candidate)
    (hpre : ∀ p ∈ pre, ¬ p.connects) (hc : c.connects) :
    (create_and_connect_socket host port 0 (pre ++ c :: post)).1 = c.sock ∧
      Event.socket pre.length c.sock ∈
        (create_and_connect_socket host port 0 (pre ++ c :: post)).2 ∧
      Event.connect c.sock pre.length 0 ∈
        (create_and_connect_socket host port 0 (pre ++ c :: post)).2 ∧
      socketCalls (create_and_connect_socket host port 0 (pre ++ c :: post)).2 =
        List.range (pre.length + 1) ∧
      (∀ h j r, Event.connect h j r ∈
        (create_and_connect_socket host port 0 (pre ++ c :: post)).2 → j ≤ pre.length) ∧
      (∀ h o t r, Event.setsockopt h o t r ∈
        (create_and_connect_socket host port 0 (pre ++ c :: post)).2 →
          ∃ j, j ≤ pre.length ∧ Event.socket j h ∈
            (create_and_connect_socket host port 0 (pre ++ c :: post)).2) ∧
      create_and_connect_socket host port 0 (pre ++ c :: post) =
        create_and_connect_socket host port 0 (pre ++ [c]) := by
  obtain ⟨h1, h2, h3, h4, h5, h6, h7⟩ :=
    connect_loop_first_connecting pre post c hpre hc 0 INVALID_SOCKET
  simp only [Nat.zero_add] at h3 h4 h5 h6
  simp only [create_and_connect_socket, ne_eq, not_true_eq_false, if_false, List.mem_cons,
    List.mem_append, List.mem_singleton, reduceCtorEq, false_or, or_false, List.not_mem_nil]
  refine ⟨h1, h3, h4, ?_, h5, h6, by rw [h7]⟩
  rw [← List.singleton_append, List.append_assoc, socketCalls_append, socketCalls_append, h2,
    List.range_eq_range']
  simp [socketCalls]

/-- Witness for C3: the fourth entry is the first that connects. -/
theorem create_and_connect_socket_stops_at_first_success_witness :
    (∀ p ∈ demoFailing, ¬ p.connects) ∧ demoConnecting.connects ∧
      (create_and_connect_socket DEFAULT_HOST DEFAULT_PORT 0
        (demoFailing ++ demoConnecting :: [demoTimeoutFails])).1 = demoConnecting.sock :=
  ⟨by decide, by decide,
    (create_and_connect_socket_stops_at_first_success DEFAULT_HOST DEFAULT_PORT demoFailing
      [demoTimeoutFails] demoConnecting (by decide) (by decide)).1⟩

/-- Witness for C4: three sockets are created, two are closed once, the third is open. -/
theorem create_and_connect_socket_leaves_one_socket_open_witness :
    (∃ h j, Event.connect h j 0 ∈ (create_and_connect_socket DEFAULT_HOST DEFAULT_PORT 0
        (demoFailing ++ [demoConnecting])).2) ∧
      ∃ k, (FdTable.empty.run (create_and_connect_socket DEFAULT_HOST DEFAULT_PORT 0
          (demoFailing ++ [demoConnecting])).2).opened =
        [(k, (create_and_connect_socket DEFAULT_HOST DEFAULT_PORT 0
          (demoFailing ++ [demoConnecting])).1)] :=
  ⟨⟨3, 3, by decide⟩,
    (create_and_connect_socket_leaves_one_socket_open DEFAULT_HOST DEFAULT_PORT 0
      (demoFailing ++ [demoConnecting]) ⟨3, 3, by decide⟩).imp fun _ h => h.1⟩

/-! ## The read loop, one turn at a time -/

theorem recvCalls_append (a b : List Event) : recvCalls (a ++ b) = recvCalls a + recvCalls b := by
  induction a with
  | nil => simp [recvCalls]
  | cons e a ih => cases e <;> simp [recvCalls, ih]; omega

/-- The terminator stored behind a chunk does not change the chunk: reading back as many
bytes as `recv` delivered gives the delivered bytes. -/
theorem readBytes_store_fill (buffer : Nat → Byte) (data : List Byte) :
    readBytes (store (fill buffer data) data.length 0) data.length = data := by
  apply List.ext_getElem
  · simp [readBytes]
  · intro i h1 h2
    have hne : i ≠ data.length := Nat.ne_of_lt h2
    simp [readBytes, store, fill, hne, h2]

/-- A turn in which a non-empty chunk that fits is read and accepted in full by `fwrite`. -/
theorem receive_loop_forwarded (sock : Int) (buffer : Nat → Byte) (held : List Byte)
    (s : ReadStep) (rest : List ReadStep) (hs : s.forwarded)
    (hcap : s.recv.received ≤ ((MAX_BUFFER - 1 : Nat) : Int)) :
    receive_loop sock (s :: rest) buffer held =
      Run.after (s.outFull held)
        [Event.recv sock (MAX_BUFFER - 1) s.recv.received,
          Event.store s.recv.data.length,
          Event.fwrite s.recv.data.length s.recv.data.length, Event.fflush s.flush.ret]
        (receive_loop sock rest (store (fill buffer s.recv.data) s.recv.data.length 0)
          (s.heldFull held)) := by
  obtain ⟨r, w, ps, f⟩ := s
  obtain ⟨h1, h2⟩ := hs
  cases r with
  | fail => simp [RecvOutcome.received] at h1
  | bytes d =>
    simp only [RecvOutcome.received, MAX_BUFFER] at h1 h2 hcap
    have hw : w = d.length := by exact_mod_cast h2
    subst hw
    have hlt : ¬ (4096 ≤ d.length) := by omega
    simp only [receive_loop, RecvOutcome.received, RecvOutcome.data, h1, if_true,
      Int.toNat_ofNat, MAX_BUFFER, hlt, if_false, ne_eq, not_true_eq_false,
      readBytes_store_fill, List.take_length, ReadStep.outFull, ReadStep.heldFull]

/-- A turn in which `recv` returns 0. -/
theorem receive_loop_closed (sock : Int) (buffer : Nat → Byte) (held : List Byte)
    (s : ReadStep) (rest : List ReadStep) (hs : s.recv.received = 0) :
    receive_loop sock (s :: rest) buffer held =
      { result := Outcome.returned 0, out := [], held := held,
        trace := [Event.recv sock (MAX_BUFFER - 1) s.recv.received] } := by
  simp [receive_loop, hs]

/-- A turn in which `recv` returns a negative value. -/
theorem receive_loop_failed (sock : Int) (buffer : Nat → Byte) (held : List Byte)
    (s : ReadStep) (rest : List ReadStep) (hs : s.recv.received < 0) :
    receive_loop sock (s :: rest) buffer held =
      { result := Outcome.returned (-1), out := [], held := held,
        trace := [Event.recv sock (MAX_BUFFER - 1) s.recv.received] } := by
  have h : ¬ (0 < s.recv.received) := by omega
  simp [receive_loop, hs, h]

/-- A turn in which a chunk that fits is read and `fwrite` does not accept all of it. -/
theorem receive_loop_short (sock : Int) (buffer : Nat → Byte) (held : List Byte)
    (s : ReadStep) (rest : List ReadStep) (hpos : 0 < s.recv.received)
    (hcap : s.recv.received ≤ ((MAX_BUFFER - 1 : Nat) : Int))
    (hw : (s.written : Int) ≠ s.recv.received) :
    receive_loop sock (s :: rest) buffer held =
      { result := Outcome.returned (-1),
        out := (held ++ s.recv.data.take s.written).take s.passed,
        held := (held ++ s.recv.data.take s.written).drop s.passed,
        trace := [Event.recv sock (MAX_BUFFER - 1) s.recv.received,
          Event.store s.recv.data.length,
          Event.fwrite s.recv.data.length s.written] } := by
  obtain ⟨r, w, ps, f⟩ := s
  cases r with
  | fail => simp [RecvOutcome.received] at hpos
  | bytes d =>
    simp only [RecvOutcome.received, MAX_BUFFER] at hpos hw hcap
    have hw1 : w ≠ d.length := by exact_mod_cast hw
    have hlt : ¬ (4096 ≤ d.length) := by omega
    simp only [receive_loop, RecvOutcome.received, RecvOutcome.data, hpos, if_true,
      Int.toNat_ofNat, MAX_BUFFER, hlt, if_false, ne_eq, hw1, not_false_eq_true,
      readBytes_store_fill]

/-- A turn in which `recv` returns more than it was asked for. -/
theorem receive_loop_overrun (sock : Int) (buffer : Nat → Byte) (held : List Byte)
    (s : ReadStep) (rest : List ReadStep)
    (hcap : ((MAX_BUFFER - 1 : Nat) : Int) < s.recv.received) :
    receive_loop sock (s :: rest) buffer held =
      { result := Outcome.outOfBounds, out := [], held := held,
        trace := [Event.recv sock (MAX_BUFFER - 1) s.recv.received] } := by
  obtain ⟨r, w, ps, f⟩ := s
  cases r with
  | fail => simp [RecvOutcome.received, MAX_BUFFER] at hcap
  | bytes d =>
    simp only [RecvOutcome.received, MAX_BUFFER] at hcap
    have hpos : (0 : Int) < (d.length : Int) := by omega
    have hlt : 4096 ≤ d.length := by omega
    simp only [receive_loop, RecvOutcome.received, hpos, if_true, Int.toNat_ofNat, MAX_BUFFER,
      hlt]

theorem data_length_eq (s : ReadStep) (h : 0 ≤ s.recv.received) :
    (s.recv.data.length : Int) = s.recv.received := by
  obtain ⟨r, w, ps, f⟩ := s
  cases r with
  | fail => simp [RecvOutcome.received] at h
  | bytes d => rfl

/-- A turn whose `fflush` succeeds passes on everything the stream held and the chunk. -/
theorem outFull_of_done (s : ReadStep) (held : List Byte) (hf : s.flush = FlushOutcome.done) :
    s.outFull held = held ++ s.recv.data ∧ s.heldFull held = [] := by
  simp [ReadStep.outFull, ReadStep.heldFull, hf, FlushOutcome.passes, FlushOutcome.keeps]

/-- The loop over a run of turns that each forward a chunk that fits: one `recv` is issued
per turn and the loop goes on.  If moreover the stream held nothing and every `fflush`
succeeds, the chunks have reached standard output in order and the stream holds nothing. -/
theorem receive_loop_forwarded_append (sock : Int) (pre tail : List ReadStep)
    (hpre : ∀ s ∈ pre, s.forwarded)
    (hcap : ∀ s ∈ pre, s.recv.received ≤ ((MAX_BUFFER - 1 : Nat) : Int))
    (buffer : Nat → Byte) (held : List Byte) :
    ∃ out evs buffer1 held1, receive_loop sock (pre ++ tail) buffer held =
        Run.after out evs (receive_loop sock tail buffer1 held1) ∧
      recvCalls evs = pre.length ∧
      ((∀ s ∈ pre, s.flush = FlushOutcome.done) → held = [] →
        out = (pre.map fun s => s.recv.data).flatten ∧ held1 = []) := by
  induction pre generalizing buffer held with
  | nil => exact ⟨[], [], buffer, held, by simp [Run.after], rfl, fun _ h => ⟨rfl, h⟩⟩
  | cons s pre ih =>
    obtain ⟨out, evs, buffer1, held1, h1, h2, h3⟩ :=
      ih (fun q hq => hpre q (List.mem_cons_of_mem _ hq))
        (fun q hq => hcap q (List.mem_cons_of_mem _ hq))
        (store (fill buffer s.recv.data) s.recv.data.length 0) (s.heldFull held)
    refine ⟨s.outFull held ++ out,
      [Event.recv sock (MAX_BUFFER - 1) s.recv.received, Event.store s.recv.data.length,
        Event.fwrite s.recv.data.length s.recv.data.length, Event.fflush s.flush.ret] ++ evs,
      buffer1, held1, ?_, ?_, ?_⟩
    · rw [List.cons_append, receive_loop_forwarded sock buffer held s _
        (hpre s (List.mem_cons_self _ _)) (hcap s (List.mem_cons_self _ _)), h1]
      simp [Run.after]
    · rw [recvCalls_append, h2]
      simp [recvCalls]
      omega
    · intro hfl hheld
      obtain ⟨e1, e2⟩ := outFull_of_done s held (hfl s (List.mem_cons_self _ _))
      obtain ⟨e3, e4⟩ := h3 (fun q hq => hfl q (List.mem_cons_of_mem _ hq)) e2
      subst hheld
      refine ⟨?_, e4⟩
      rw [e1, e3]
      simp

/-- The five ways one turn of the read loop can go. -/
theorem receive_loop_cons_cases (sock : Int) (buffer : Nat → Byte) (held : List Byte)
    (s : ReadStep) (rest : List ReadStep) :
    (s.forwarded ∧ s.recv.received ≤ ((MAX_BUFFER - 1 : Nat) : Int) ∧
      receive_loop sock (s :: rest) buffer held =
        Run.after (s.outFull held)
          [Event.recv sock (MAX_BUFFER - 1) s.recv.received,
            Event.store s.recv.data.length,
            Event.fwrite s.recv.data.length s.recv.data.length, Event.fflush s.flush.ret]
          (receive_loop sock rest (store (fill buffer s.recv.data) s.recv.data.length 0)
            (s.heldFull held))) ∨
    (0 < s.recv.received ∧ s.recv.received ≤ ((MAX_BUFFER - 1 : Nat) : Int) ∧
      (s.written : Int) ≠ s.recv.received ∧
      receive_loop sock (s :: rest) buffer held =
        { result := Outcome.returned (-1),
          out := (held ++ s.recv.data.take s.written).take s.passed,
          held := (held ++ s.recv.data.take s.written).drop s.passed,
          trace := [Event.recv sock (MAX_BUFFER - 1) s.recv.received,
            Event.store s.recv.data.length,
            Event.fwrite s.recv.data.length s.written] }) ∨
    (s.recv.received = 0 ∧
      receive_loop sock (s :: rest) buffer held =
        { result := Outcome.returned 0, out := [], held := held,
          trace := [Event.recv sock (MAX_BUFFER - 1) s.recv.received] }) ∨
    (s.recv.received < 0 ∧
      receive_loop sock (s :: rest) buffer held =
        { result := Outcome.returned (-1), out := [], held := held,
          trace := [Event.recv sock (MAX_BUFFER - 1) s.recv.received] }) ∨
    (((MAX_BUFFER - 1 : Nat) : Int) < s.recv.received ∧
      receive_loop sock (s :: rest) buffer held =
        { result := Outcome.outOfBounds, out := [], held := held,
          trace := [Event.recv sock (MAX_BUFFER - 1) s.recv.received] }) := by
  rcases lt_trichotomy s.recv.received 0 with h | h | h
  · exact Or.inr (Or.inr (Or.inr (Or.inl ⟨h, receive_loop_failed sock buffer held s rest h⟩)))
  · exact Or.inr (Or.inr (Or.inl ⟨h, receive_loop_closed sock buffer held s rest h⟩))
  · by_cases hcap : s.recv.received ≤ ((MAX_BUFFER - 1 : Nat) : Int)
    · by_cases hw : (s.written : Int) = s.recv.received
      · exact Or.inl ⟨⟨h, hw⟩, hcap,
          receive_loop_forwarded sock buffer held s rest ⟨h, hw⟩ hcap⟩
      · exact Or.inr (Or.inl ⟨h, hcap, hw,
          receive_loop_short sock buffer held s rest h hcap hw⟩)
    · exact Or.inr (Or.inr (Or.inr (Or.inr
        ⟨not_le.1 hcap, receive_loop_overrun sock buffer held s rest (not_le.1 hcap)⟩)))

/-- `receive_data` returns 0 or -1 when it returns. -/
theorem receive_loop_returned (sock : Int) (reads : List ReadStep) (buffer : Nat → Byte)
    (held : List Byte) (v : Int)
    (h : (receive_loop sock reads buffer held).result = Outcome.returned v) :
    v = 0 ∨ v = -1 := by
  induction reads generalizing buffer held with
  | nil => simp [receive_loop] at h
  | cons s rest ih =>
    rcases receive_loop_cons_cases sock buffer held s rest with
      ⟨-, -, e⟩ | ⟨-, -, -, e⟩ | ⟨-, e⟩ | ⟨-, e⟩ | ⟨-, e⟩ <;> rw [e] at h
    · exact ih _ _ h
    · simp only [Outcome.returned.injEq] at h
      exact Or.inr h.symm
    · simp only [Outcome.returned.injEq] at h
      exact Or.inl h.symm
    · simp only [Outcome.returned.injEq] at h
      exact Or.inr h.symm
    · simp at h

/-- If the loop returns 0, the reads are a run of forwarded chunks followed by a read of
zero bytes. -/
theorem receive_loop_returned_zero (sock : Int) (reads : List ReadStep) (buffer : Nat → Byte)
    (held : List Byte)
    (h : (receive_loop sock reads buffer held).result = Outcome.returned 0) :
    ∃ pre z post, reads = pre ++ z :: post ∧ (∀ s ∈ pre, s.forwarded) ∧
      z.recv.received = 0 := by
  induction reads generalizing buffer held with
  | nil => simp [receive_loop] at h
  | cons s rest ih =>
    rcases receive_loop_cons_cases sock buffer held s rest with
      ⟨hf, -, e⟩ | ⟨-, -, -, e⟩ | ⟨hz, e⟩ | ⟨-, e⟩ | ⟨-, e⟩ <;> rw [e] at h
    · obtain ⟨pre, z, post, rfl, h1, h2⟩ := ih _ _ h
      refine ⟨s :: pre, z, post, rfl, ?_, h2⟩
      intro q hq
      rcases List.mem_cons.1 hq with rfl | hq
      · exact hf
      · exact h1 q hq
    · simp at h
    · exact ⟨[], s, rest, rfl, by simp, hz⟩
    · simp at h
    · simp at h

/-! ## The receiver: claims C6, C8, C10 -/

/-- C6 (the claim as stated fails here).  In the reads `demoFlushFails` the one chunk,
`HELLO\n`, is not empty and fits the request, `fwrite` returns its full length 6, and the
next `recv` returns 0.  `receive_data` returns 0 and `main` exits with status 0, yet no byte
has reached standard output and the stream holds none to write later: the `fflush` of
line 142 failed, and its result is not looked at. -/
theorem receive_data_loses_chunk_when_fflush_fails :
    (∀ s ∈ demoFlushFails.take 1, s.forwarded ∧
        s.recv.received ≤ ((MAX_BUFFER - 1 : Nat) : Int)) ∧
      (∀ s ∈ demoFlushFails.drop 1, s.recv.received = 0) ∧
      (demoFlushFails.map fun s => s.recv.data).flatten = [72, 69, 76, 76, 79, 10] ∧
      Event.fwrite 6 6 ∈ (receive_data 3 (fun _ => 0) demoFlushFails).trace ∧
      Event.fflush (-1) ∈ (receive_data 3 (fun _ => 0) demoFlushFails).trace ∧
      (receive_data 3 (fun _ => 0) demoFlushFails).result = Outcome.returned 0 ∧
      (receive_data 3 (fun _ => 0) demoFlushFails).out = [] ∧
      (receive_data 3 (fun _ => 0) demoFlushFails).held = [] ∧
      (receive_data 3 (fun _ => 0) demoFlushFails).out ≠ [72, 69, 76, 76, 79, 10] ∧
      (main demoFlushFailsEnv).result = Outcome.returned 0 ∧
      (main demoFlushFailsEnv).out = [] := by
  decide

/-- C6 (amended).  Let the reads begin with a run `pre` of turns in each of which `recv`
delivers a non-empty chunk, no longer than the `MAX_BUFFER - 1` bytes asked for, `fwrite`
returns the length of the chunk and `fflush` succeeds, and let the next `recv` return 0.
Then `receive_data` returns 0, the bytes that have reached standard output are the
concatenation of the chunks in order and nothing else, and the stream holds nothing back,
whatever the initial content of the buffer and whatever later reads would have delivered. -/
theorem receive_data_forwards_every_byte (sock : Int) (buffer : Nat → Byte)
    (pre : List ReadStep) (z : ReadStep) (rest : List ReadStep)
    (hfw : ∀ s ∈ pre, s.forwarded)
    (hcap : ∀ s ∈ pre, s.recv.received ≤ ((MAX_BUFFER - 1 : Nat) : Int))
    (hfl : ∀ s ∈ pre, s.flush = FlushOutcome.done)
    (hz : z.recv.received = 0) :
    (receive_data sock buffer (pre ++ z :: rest)).result = Outcome.returned 0 ∧
      (receive_data sock buffer (pre ++ z :: rest)).out
        = (pre.map fun s => s.recv.data).flatten ∧
      (receive_data sock buffer (pre ++ z :: rest)).held = [] := by
  obtain ⟨out, evs, buffer1, held1, e, -, h3⟩ :=
    receive_loop_forwarded_append sock pre (z :: rest) hfw hcap buffer []
  obtain ⟨e1, e2⟩ := h3 hfl rfl
  rw [receive_data, e, receive_loop_closed sock buffer1 held1 z rest hz, e1, e2]
  simp [Run.after]

/-- Witness for C6: the chunk `HELLO\n`, written and flushed, followed by a read of zero
bytes. -/
theorem receive_data_forwards_every_byte_witness :
    (∀ s ∈ forwardedReads [[72, 69, 76, 76, 79, 10]], s.forwarded) ∧
      (∀ s ∈ forwardedReads [[72, 69, 76, 76, 79, 10]],
        s.recv.received ≤ ((MAX_BUFFER - 1 : Nat) : Int)) ∧
      (∀ s ∈ forwardedReads [[72, 69, 76, 76, 79, 10]], s.flush = FlushOutcome.done) ∧
      (receive_data 3 (fun _ => 0)
        (forwardedReads [[72, 69, 76, 76, 79, 10]] ++
          { recv := RecvOutcome.bytes [], written := 0 } :: [])).result = Outcome.returned 0 ∧
      (receive_data 3 (fun _ => 0)
        (forwardedReads [[72, 69, 76, 76, 79, 10]] ++
          { recv := RecvOutcome.bytes [], written := 0 } :: [])).out
        = [72, 69, 76, 76, 79, 10] :=
  ⟨by decide, by decide, by decide,
    (receive_data_forwards_every_byte 3 (fun _ => 0) (forwardedReads [[72, 69, 76, 76, 79, 10]])
      { recv := RecvOutcome.bytes [], written := 0 } [] (by decide) (by decide) (by decide)
      rfl).1,
    (receive_data_forwards_every_byte 3 (fun _ => 0) (forwardedReads [[72, 69, 76, 76, 79, 10]])
      { recv := RecvOutcome.bytes [], written := 0 } [] (by decide) (by decide) (by decide)
      rfl).2.1⟩

/-- C8.  Let no `recv` return more than the `MAX_BUFFER - 1` bytes asked for.  Then
`receive_data` returns 0 exactly when some read returns zero bytes and every read before it
delivered a chunk that `fwrite` wrote in full.  After such a run of forwarded chunks, a read
with a negative result makes it return -1, and a chunk of which `fwrite` does not write
every byte makes it return -1; in both cases the `recv` just made is the last one. -/
theorem receive_data_result (sock : Int) (buffer : Nat → Byte) (reads : List ReadStep)
    (hcap : ∀ s ∈ reads, s.recv.received ≤ ((MAX_BUFFER - 1 : Nat) : Int)) :
    ((receive_data sock buffer reads).result = Outcome.returned 0 ↔
        ∃ pre z post, reads = pre ++ z :: post ∧ (∀ s ∈ pre, s.forwarded) ∧
          z.recv.received = 0) ∧
      (∀ pre z post, reads = pre ++ z :: post → (∀ s ∈ pre, s.forwarded) →
        z.recv.received < 0 →
        (receive_data sock buffer reads).result = Outcome.returned (-1) ∧
          recvCalls (receive_data sock buffer reads).trace = pre.length + 1) ∧
      (∀ pre z post, reads = pre ++ z :: post → (∀ s ∈ pre, s.forwarded) →
        0 < z.recv.received → (z.written : Int) ≠ z.recv.received →
        (receive_data sock buffer reads).result = Outcome.returned (-1) ∧
          recvCalls (receive_data sock buffer reads).trace = pre.length + 1) := by
  refine ⟨⟨receive_loop_returned_zero sock reads buffer [], ?_⟩, ?_, ?_⟩
  · rintro ⟨pre, z, post, rfl, hpre, hz⟩
    obtain ⟨out, evs, buffer1, held1, e, -, -⟩ :=
      receive_loop_forwarded_append sock pre (z :: post) hpre
        (fun s hs => hcap s (List.mem_append_left _ hs)) buffer []
    rw [receive_data, e, receive_loop_closed sock buffer1 held1 z post hz]
    rfl
  · rintro pre z post rfl hpre hz
    obtain ⟨out, evs, buffer1, held1, e, hn, -⟩ :=
      receive_loop_forwarded_append sock pre (z :: post) hpre
        (fun s hs => hcap s (List.mem_append_left _ hs)) buffer []
    rw [receive_data, e, receive_loop_failed sock buffer1 held1 z post hz]
    refine ⟨rfl, ?_⟩
    simp only [Run.after, recvCalls_append, hn]
    rfl
  · rintro pre z post rfl hpre hz hw
    obtain ⟨out, evs, buffer1, held1, e, hn, -⟩ :=
      receive_loop_forwarded_append sock pre (z :: post) hpre
        (fun s hs => hcap s (List.mem_append_left _ hs)) buffer []
    rw [receive_data, e, receive_loop_short sock buffer1 held1 z post hz
      (hcap z (List.mem_append_right _ (List.mem_cons_self _ _))) hw]
    refine ⟨rfl, ?_⟩
    simp only [Run.after, recvCalls_append, hn]
    rfl

/-- Witness for C8: the second chunk is written short, and the third read is never made. -/
theorem receive_data_result_witness :
    (∀ s ∈ demoShortWrite, s.recv.received ≤ ((MAX_BUFFER - 1 : Nat) : Int)) ∧
      (receive_data 3 (fun _ => 0) demoShortWrite).result = Outcome.returned (-1) ∧
      recvCalls (receive_data 3 (fun _ => 0) demoShortWrite).trace = 2 :=
  ⟨by decide,
    (receive_data_result 3 (fun _ => 0) demoShortWrite (by decide)).2.2
      [{ recv := RecvOutcome.bytes [72, 69], written := 2 }]
      { recv := RecvOutcome.bytes [76, 76, 79], written := 1 }
      [{ recv := RecvOutcome.bytes [], written := 0 }] rfl (by decide) (by decide) (by decide)⟩

/-- C10.  Every `recv` of `receive_data` asks for `MAX_BUFFER - 1 = 4095` bytes.  If no
`recv` returns more than that, the run never leaves the buffer: every terminator is stored
at an index between 1 and 4095, below `MAX_BUFFER`, every `fwrite` is given a count between
1 and 4095 and so reads only below that index, and every `recv` returned at most 4095. -/
theorem receive_data_stays_in_buffer (sock : Int) (buffer : Nat → Byte)
    (reads : List ReadStep) :
    (∀ s cap ret, Event.recv s cap ret ∈ (receive_data sock buffer reads).trace →
        cap = MAX_BUFFER - 1 ∧ cap = 4095) ∧
      ((∀ s ∈ reads, s.recv.received ≤ ((MAX_BUFFER - 1 : Nat) : Int)) →
        (receive_data sock buffer reads).result ≠ Outcome.outOfBounds ∧
        (∀ idx, Event.store idx ∈ (receive_data sock buffer reads).trace →
          1 ≤ idx ∧ idx ≤ 4095 ∧ idx < MAX_BUFFER) ∧
        (∀ n w, Event.fwrite n w ∈ (receive_data sock buffer reads).trace →
          1 ≤ n ∧ n ≤ 4095) ∧
        (∀ s cap ret, Event.recv s cap ret ∈ (receive_data sock buffer reads).trace →
          ret ≤ 4095)) := by
  unfold receive_data
  generalize ([] : List Byte) = held
  induction reads generalizing buffer held with
  | nil => simp [receive_loop]
  | cons s rest ih =>
    have hlen : ∀ n : Nat, 0 < s.recv.received →
        s.recv.received ≤ ((MAX_BUFFER - 1 : Nat) : Int) →
        1 ≤ s.recv.data.length ∧ s.recv.data.length ≤ 4095 := by
      intro _ h1 h2
      have := data_length_eq s h1.le
      simp only [MAX_BUFFER] at h2
      omega
    have hone1 : ∀ (s1 : Int) (cap : Nat) (ret : Int),
        Event.recv s1 cap ret ∈ [Event.recv sock (MAX_BUFFER - 1) s.recv.received] →
        cap = MAX_BUFFER - 1 ∧ cap = 4095 := by
      intro s1 cap ret hm
      simp only [List.mem_cons, Event.recv.injEq, List.not_mem_nil, or_false] at hm
      exact ⟨hm.2.1, hm.2.1.trans rfl⟩
    have hone3 : ∀ (w : Nat) (s1 : Int) (cap : Nat) (ret : Int),
        Event.recv s1 cap ret ∈ [Event.recv sock (MAX_BUFFER - 1) s.recv.received,
          Event.store s.recv.data.length, Event.fwrite s.recv.data.length w] →
        cap = MAX_BUFFER - 1 ∧ cap = 4095 := by
      intro w s1 cap ret hm
      simp only [List.mem_cons, Event.recv.injEq, List.not_mem_nil, or_false,
        reduceCtorEq] at hm
      exact ⟨hm.2.1, hm.2.1.trans rfl⟩
    obtain ⟨ih1, ih2⟩ := ih (store (fill buffer s.recv.data) s.recv.data.length 0)
      (s.heldFull held)
    rcases receive_loop_cons_cases sock buffer held s rest with
      ⟨hf, hc, e⟩ | ⟨hp, hc, -, e⟩ | ⟨hz, e⟩ | ⟨hn, e⟩ | ⟨ho, e⟩ <;> rw [e]
    · refine ⟨?_, ?_⟩
      · intro s1 cap ret hm
        simp only [Run.after, List.mem_append, List.mem_cons, Event.recv.injEq, reduceCtorEq,
          List.not_mem_nil, false_or, or_false] at hm
        rcases hm with ⟨-, rfl, -⟩ | hm
        · exact ⟨rfl, rfl⟩
        · exact ih1 s1 cap ret hm
      · intro hall
        obtain ⟨i1, i2, i3, i4⟩ := ih2 (fun q hq => hall q (List.mem_cons_of_mem _ hq))
        have hl := hlen 0 hf.1 hc
        refine ⟨i1, ?_, ?_, ?_⟩
        · intro idx hm
          simp only [Run.after, List.mem_append, List.mem_cons, Event.store.injEq,
            reduceCtorEq, List.not_mem_nil, false_or, or_false] at hm
          rcases hm with rfl | hm
          · simp only [MAX_BUFFER]; omega
          · exact i2 idx hm
        · intro n w hm
          simp only [Run.after, List.mem_append, List.mem_cons, Event.fwrite.injEq,
            reduceCtorEq, List.not_mem_nil, false_or, or_false] at hm
          rcases hm with ⟨rfl, -⟩ | hm
          · omega
          · exact i3 n w hm
        · intro s1 cap ret hm
          simp only [Run.after, List.mem_append, List.mem_cons, Event.recv.injEq,
            reduceCtorEq, List.not_mem_nil, false_or, or_false] at hm
          rcases hm with ⟨-, -, rfl⟩ | hm
          · simp only [MAX_BUFFER] at hc; omega
          · exact i4 s1 cap ret hm
    · refine ⟨hone3 _, fun _ => ⟨by simp, ?_, ?_, ?_⟩⟩
      · have hl := hlen 0 hp hc
        simp only [List.mem_cons, Event.store.injEq, reduceCtorEq, List.not_mem_nil,
          false_or, or_false, forall_eq, MAX_BUFFER]
        omega
      · have hl := hlen 0 hp hc
        simp only [List.mem_cons, Event.fwrite.injEq, reduceCtorEq, List.not_mem_nil,
          false_or, or_false]
        rintro n w ⟨rfl, -⟩
        omega
      · simp only [List.mem_cons, Event.recv.injEq, reduceCtorEq, List.not_mem_nil,
          false_or, or_false]
        rintro s1 cap ret ⟨-, -, rfl⟩
        simp only [MAX_BUFFER] at hc; omega
    · refine ⟨hone1, fun _ => ⟨by simp, by simp, by simp, ?_⟩⟩
      simp only [List.mem_cons, Event.recv.injEq, List.not_mem_nil, or_false]
      rintro s1 cap ret ⟨-, -, rfl⟩
      omega
    · refine ⟨hone1, fun _ => ⟨by simp, by simp, by simp, ?_⟩⟩
      simp only [List.mem_cons, Event.recv.injEq, List.not_mem_nil, or_false]
      rintro s1 cap ret ⟨-, -, rfl⟩
      omega
    · refine ⟨hone1, fun hall => ?_⟩
      have := hall s (List.mem_cons_self _ _)
      omega

/-- Witness for C10: three reads that respect the request size. -/
theorem receive_data_stays_in_buffer_witness :
    (∀ s ∈ demoShortWrite, s.recv.received ≤ ((MAX_BUFFER - 1 : Nat) : Int)) ∧
      (receive_data 3 (fun _ => 0) demoShortWrite).result ≠ Outcome.outOfBounds :=
  ⟨by decide,
    ((receive_data_stays_in_buffer 3 (fun _ => 0) demoShortWrite).2 (by decide)).1⟩

/-! ## The transmitter and the exit status: claims C7, C5 -/

/-- The message of `main` is 14 bytes long. -/
theorem strlen_message : strlen message = 14 := by decide

/-- C7.  Let `send` report no more than the `strlen data` bytes it was given.  Then
`send_data` makes exactly one `send` call, for the whole message; it returns 0 exactly when
that call reports the full length, and -1 both when the call reports a negative result and
when it reports a count that is not negative and smaller than the length.  (The test in the
code is `sent < len`: the result is 0 exactly when the count is not below the length.) -/
theorem send_data_single_call (sock : Int) (data : List Byte) (sent : Int)
    (hcontract : sent ≤ (strlen data : Int)) :
    (send_data sock data sent).2 = [Event.send sock (strlen data) sent] ∧
      sendCalls (send_data sock data sent).2 = 1 ∧
      ((send_data sock data sent).1 = 0 ↔ sent = (strlen data : Int)) ∧
      (sent < 0 → (send_data sock data sent).1 = -1) ∧
      (0 ≤ sent → sent < (strlen data : Int) → (send_data sock data sent).1 = -1) ∧
      ((send_data sock data sent).1 = 0 ↔ (strlen data : Int) ≤ sent) := by
  by_cases h1 : sent < 0
  · have h3 : sent ≠ (strlen data : Int) := by omega
    simp [send_data, h1, h3, sendCalls]
    omega
  · by_cases h2 : sent < (strlen data : Int)
    · have h3 : sent ≠ (strlen data : Int) := by omega
      simp [send_data, h1, h2, h3, sendCalls]
    · have h3 : sent = (strlen data : Int) := by omega
      simp [send_data, h1, h2, sendCalls]
      omega

/-- Witness for C7: the message of `main`, sent in full. -/
theorem send_data_single_call_witness :
    (14 : Int) ≤ (strlen message : Int) ∧
      (send_data 3 message 14).2 = [Event.send 3 (strlen message) 14] ∧
      (send_data 3 message 14).1 = 0 :=
  ⟨by decide,
    (send_data_single_call 3 message 14 (by decide)).1,
    (send_data_single_call 3 message 14 (by decide)).2.2.1.2 (by decide)⟩

theorem send_data_fst (sock : Int) (data : List Byte) (sent : Int) :
    (send_data sock data sent).1 = 0 ∨ (send_data sock data sent).1 = -1 := by
  simp only [send_data]
  split_ifs <;> simp

theorem cleanup_result (sock ret : Int) (out held : List Byte) (trace : List Event) :
    (cleanup sock ret out held trace).result = Outcome.returned ret := by
  unfold cleanup
  split_ifs <;> rfl

/-- The exit status of `main` in terms of what the three stages return. -/
theorem main_result (env : Env) :
    (main env).result =
      if (create_and_connect_socket env.host env.port env.gai_status env.res).1
          = INVALID_SOCKET then Outcome.returned 1
      else if (send_data (create_and_connect_socket env.host env.port env.gai_status
          env.res).1 message env.sent).1 < 0 then Outcome.returned 1
      else match (receive_data (create_and_connect_socket env.host env.port env.gai_status
          env.res).1 env.buffer env.reads).result with
        | Outcome.returned v => if v < 0 then Outcome.returned 1 else Outcome.returned 0
        | Outcome.outOfBounds => Outcome.outOfBounds
        | Outcome.pending => Outcome.pending := by
  simp only [main]
  split_ifs with h1 h2
  · exact cleanup_result _ _ _ _ _
  · exact cleanup_result _ _ _ _ _
  · split
    · split_ifs <;> simp [cleanup_result, *]
    · simp [*]
    · simp [*]

/-- C5.  `main` exits with status 0 exactly when `create_and_connect_socket` returned a
handle other than `INVALID_SOCKET`, `send_data` returned 0 and `receive_data` returned 0.
It exits with status 1 when the connector returned `INVALID_SOCKET` (which covers a failed
resolution), when `send_data` did not return 0, and when `receive_data` returned another
value than 0.  Its exit status is never anything but 0 or 1. -/
theorem main_exit_status (env : Env) :
    ((main env).result = Outcome.returned 0 ↔
        (create_and_connect_socket env.host env.port env.gai_status env.res).1
            ≠ INVALID_SOCKET ∧
          (send_data (create_and_connect_socket env.host env.port env.gai_status env.res).1
            message env.sent).1 = 0 ∧
          (receive_data (create_and_connect_socket env.host env.port env.gai_status env.res).1
            env.buffer env.reads).result = Outcome.returned 0) ∧
      (env.gai_status ≠ 0 → (main env).result = Outcome.returned 1) ∧
      ((create_and_connect_socket env.host env.port env.gai_status env.res).1 = INVALID_SOCKET →
        (main env).result = Outcome.returned 1) ∧
      ((create_and_connect_socket env.host env.port env.gai_status env.res).1
            ≠ INVALID_SOCKET →
        (send_data (create_and_connect_socket env.host env.port env.gai_status env.res).1
            message env.sent).1 ≠ 0 →
        (main env).result = Outcome.returned 1) ∧
      ((create_and_connect_socket env.host env.port env.gai_status env.res).1
            ≠ INVALID_SOCKET →
        (send_data (create_and_connect_socket env.host env.port env.gai_status env.res).1
            message env.sent).1 = 0 →
        ∀ v, (receive_data (create_and_connect_socket env.host env.port env.gai_status
            env.res).1 env.buffer env.reads).result = Outcome.returned v → v ≠ 0 →
          (main env).result = Outcome.returned 1) ∧
      (∀ v, (main env).result = Outcome.returned v → v = 0 ∨ v = 1) := by
  have hgai : env.gai_status ≠ 0 →
      (create_and_connect_socket env.host env.port env.gai_status env.res).1
        = INVALID_SOCKET := by
    intro h
    simp [create_and_connect_socket, h]
  have hmain := main_result env
  generalize (create_and_connect_socket env.host env.port env.gai_status env.res) = c at *
  have hs := send_data_fst c.1 message env.sent
  have hr := receive_loop_returned c.1 env.reads env.buffer []
  rw [← receive_data] at hr
  generalize (send_data c.1 message env.sent).1 = s at *
  generalize (receive_data c.1 env.buffer env.reads).result = r at *
  rw [hmain]
  refine ⟨?_, ?_, ?_, ?_, ?_, ?_⟩
  · by_cases h1 : c.1 = INVALID_SOCKET
    · simp [h1]
    · rcases hs with hs | hs
      · subst hs
        cases r with
        | returned v =>
          rcases hr v rfl with rfl | rfl <;> simp [h1]
        | outOfBounds => simp [h1]
        | pending => simp [h1]
      · subst hs
        simp [h1]
  · intro h
    simp [hgai h]
  · intro h
    simp [h]
  · intro h1 h2
    have : s = -1 := by omega
    simp [h1, this]
  · intro h1 h2 v hv hv0
    subst hv
    rcases hr v rfl with rfl | rfl
    · exact absurd rfl hv0
    · simp [h1, h2]
  · intro v
    split_ifs
    · intro h; simp only [Outcome.returned.injEq] at h; omega
    · intro h; simp only [Outcome.returned.injEq] at h; omega
    · cases r with
      | returned w =>
        simp only
        split_ifs <;> intro h <;> simp only [Outcome.returned.injEq] at h <;> omega
      | outOfBounds => simp
      | pending => simp

/-- Witness for C5: the run that fetches `HELLO\n` exits with status 0. -/
theorem main_exit_status_witness :
    (main { argv := ["client", "127.0.0.1", "60000"], gai_status := 0,
            res := [demoConnecting], sent := 14, buffer := fun _ => 0,
            reads := forwardedReads [[72, 69, 76, 76, 79, 10]] ++
              [{ recv := RecvOutcome.bytes [], written := 0 }] }).result
        = Outcome.returned 0 :=
  (main_exit_status _).1.2 ⟨by decide, by decide, by decide⟩

/-! ## The order of the stages: claim C9 -/

/-- An occurrence of `e` in `x ++ y`, where `e` is not in `x`, lies in `y`. -/
theorem split_right_of_not_mem {α : Type} {a b x y : List α} {e : α}
    (h : a ++ e :: b = x ++ y) (he : e ∉ x) : ∃ a1, a = x ++ a1 ∧ y = a1 ++ e :: b := by
  rcases List.append_eq_append_iff.1 h with ⟨a1, h1, h2⟩ | ⟨c1, h1, h2⟩
  · cases a1 with
    | nil =>
      refine ⟨[], ?_, ?_⟩
      · simpa using h1.symm
      · simpa using h2.symm
    | cons z a1 =>
      simp only [List.cons_append, List.cons.injEq] at h2
      exact absurd (by rw [h1, h2.1]; simp) he
  · exact ⟨c1, h1, h2⟩

/-- An occurrence of `e` in `x ++ y`, where `e` is not in `y`, lies in `x`. -/
theorem split_left_of_not_mem {α : Type} {a b x y : List α} {e : α}
    (h : a ++ e :: b = x ++ y) (he : e ∉ y) : ∃ b1, x = a ++ e :: b1 := by
  rcases List.append_eq_append_iff.1 h with ⟨a1, h1, h2⟩ | ⟨c1, h1, h2⟩
  · cases a1 with
    | nil =>
      simp only [List.nil_append] at h2
      exact absurd (by rw [← h2]; simp) he
    | cons z a1 =>
      simp only [List.cons_append, List.cons.injEq] at h2
      exact ⟨a1, by rw [h1, h2.1]⟩
  · exact absurd (by rw [h2]; simp) he

theorem byConnector_set_socket_timeout (s t r1 r2 : Int) :
    ∀ e ∈ (set_socket_timeout s t r1 r2).2, e.byConnector = true := by
  unfold set_socket_timeout
  split_ifs <;> simp [Event.byConnector]

theorem byConnector_connect_loop (i : Nat) (res : List Candidate) (s : Int) :
    ∀ e ∈ (connect_loop i res s).2, e.byConnector = true := by
  induction res generalizing i s with
  | nil => simp [connect_loop]
  | cons p res ih =>
    have ht := byConnector_set_socket_timeout p.sock CONNECT_TIMEOUT_SECONDS p.rcvtimeo
      p.sndtimeo
    simp only [connect_loop, emit]
    split_ifs
    · intro e he
      simp only [List.mem_append, List.mem_cons, List.not_mem_nil, or_false] at he
      rcases he with rfl | he
      · rfl
      · exact ih _ _ e he
    · intro e he
      simp only [List.mem_append, List.mem_cons, List.not_mem_nil, or_false,
        List.cons_append] at he
      rcases he with rfl | (he | rfl) | he
      · rfl
      · exact ht e he
      · rfl
      · exact ih _ _ e he
    · intro e he
      simp only [List.mem_append, List.mem_cons, List.not_mem_nil, or_false] at he
      rcases he with (rfl | he) | rfl
      · rfl
      · exact ht e he
      · rfl
    · intro e he
      simp only [List.mem_append, List.mem_cons, List.not_mem_nil, or_false,
        List.cons_append] at he
      rcases he with rfl | (he | rfl | rfl) | he
      · rfl
      · exact ht e he
      · rfl
      · rfl
      · exact ih _ _ e he

theorem byConnector_create_and_connect_socket (host port : String) (status : Int)
    (res : List Candidate) :
    ∀ e ∈ (create_and_connect_socket host port status res).2, e.byConnector = true := by
  unfold create_and_connect_socket
  split_ifs
  · simp [Event.byConnector]
  · intro e he
    simp only [List.mem_append, List.mem_cons, List.not_mem_nil, or_false] at he
    rcases he with (rfl | he) | rfl
    · rfl
    · exact byConnector_connect_loop _ _ _ e he
    · rfl

theorem byReceiver_receive_loop (sock : Int) (reads : List ReadStep) (buffer : Nat → Byte)
    (held : List Byte) :
    ∀ e ∈ (receive_loop sock reads buffer held).trace, e.byReceiver = true := by
  induction reads generalizing buffer held with
  | nil => simp [receive_loop]
  | cons s rest ih =>
    rcases receive_loop_cons_cases sock buffer held s rest with
      ⟨-, -, h⟩ | ⟨-, -, -, h⟩ | ⟨-, h⟩ | ⟨-, h⟩ | ⟨-, h⟩ <;> rw [h]
    · intro e he
      simp only [Run.after, List.mem_append, List.mem_cons, List.not_mem_nil, or_false] at he
      rcases he with (rfl | rfl | rfl | rfl) | he
      · rfl
      · rfl
      · rfl
      · rfl
      · exact ih _ _ e he
    · simp [Event.byReceiver]
    · simp [Event.byReceiver]
    · simp [Event.byReceiver]
    · simp [Event.byReceiver]

/-- Every call of the connector comes after a successful `getaddrinfo`, the first call. -/
theorem getaddrinfo_first (host port : String) (status : Int) (res : List Candidate)
    (a b : List Event) (e : Event) (he : ∀ h p s, e ≠ Event.getaddrinfo h p s)
    (h : (create_and_connect_socket host port status res).2 = a ++ e :: b) :
    Event.getaddrinfo host port 0 ∈ a := by
  unfold create_and_connect_socket at h
  split_ifs at h with hs
  · cases a with
    | nil =>
      simp only [List.nil_append, List.cons.injEq] at h
      exact absurd h.1.symm (he _ _ _)
    | cons z a =>
      simp only [List.cons_append, List.cons.injEq] at h
      have := congrArg List.length h.2
      simp at this
      omega
  · cases a with
    | nil =>
      simp only [List.nil_append, List.cons_append, List.cons.injEq] at h
      exact absurd h.1.symm (he _ _ _)
    | cons z a =>
      simp only [List.cons_append, List.cons.injEq] at h
      have hs0 : status = 0 := by simpa using hs
      rw [← h.1, hs0]
      exact List.mem_cons_self _ _

theorem send_data_snd (sock : Int) (data : List Byte) (sent : Int) :
    (send_data sock data sent).2 = [Event.send sock (strlen data) sent] := by
  simp only [send_data]
  split_ifs <;> rfl

theorem send_data_fst_neg_iff (sock : Int) (data : List Byte) (sent : Int) :
    (send_data sock data sent).1 < 0 ↔ sent < (strlen data : Int) := by
  simp only [send_data]
  split_ifs <;> simp <;> omega

/-- The trace of `main`: the connector, then, if it returned a handle, the one `send`, then,
if `send_data` did not fail, the receiver; closes of the handle come last. -/
theorem main_trace (env : Env) :
    ∃ closing, (∀ e ∈ closing, e = Event.closesocket
        (create_and_connect_socket env.host env.port env.gai_status env.res).1) ∧
      (main env).trace =
        (create_and_connect_socket env.host env.port env.gai_status env.res).2 ++
        if (create_and_connect_socket env.host env.port env.gai_status env.res).1
            = INVALID_SOCKET then []
        else Event.send (create_and_connect_socket env.host env.port env.gai_status env.res).1
            (strlen message) env.sent ::
          if env.sent < (strlen message : Int) then closing
          else (receive_data (create_and_connect_socket env.host env.port env.gai_status
            env.res).1 env.buffer env.reads).trace ++ closing := by
  simp only [main]
  generalize (create_and_connect_socket env.host env.port env.gai_status env.res) = c
  by_cases h1 : c.1 = INVALID_SOCKET
  · exact ⟨[], by simp, by simp [h1, cleanup]⟩
  · by_cases h2 : env.sent < (strlen message : Int)
    · have h3 := (send_data_fst_neg_iff c.1 message env.sent).2 h2
      exact ⟨[Event.closesocket c.1], by simp, by simp [h1, h2, h3, cleanup, send_data_snd]⟩
    · have h3 : ¬ (send_data c.1 message env.sent).1 < 0 :=
        fun h => h2 ((send_data_fst_neg_iff c.1 message env.sent).1 h)
      simp only [h1, h2, h3, if_false, send_data_snd]
      cases hr : (receive_data c.1 env.buffer env.reads).result with
      | returned v =>
        refine ⟨[Event.closesocket c.1], by simp, ?_⟩
        simp only [cleanup, ne_eq, h1, not_false_eq_true, if_true]
        split_ifs <;> simp
      | outOfBounds => exact ⟨[], by simp, by simp⟩
      | pending => exact ⟨[], by simp, by simp⟩

theorem sendCalls_append (a b : List Event) : sendCalls (a ++ b) = sendCalls a + sendCalls b := by
  induction a with
  | nil => simp [sendCalls]
  | cons e a ih => cases e <;> simp [sendCalls, ih]; omega

theorem sendCalls_eq_zero (l : List Event) (h : ∀ e ∈ l, ∀ s n r, e ≠ Event.send s n r) :
    sendCalls l = 0 := by
  induction l with
  | nil => rfl
  | cons e l ih =>
    have ih1 := ih (fun x hx => h x (List.mem_cons_of_mem _ hx))
    have he := h e (List.mem_cons_self _ _)
    cases e <;> simp_all [sendCalls]

theorem recvCalls_eq_zero (l : List Event) (h : ∀ e ∈ l, ∀ s n r, e ≠ Event.recv s n r) :
    recvCalls l = 0 := by
  induction l with
  | nil => rfl
  | cons e l ih =>
    have ih1 := ih (fun x hx => h x (List.mem_cons_of_mem _ hx))
    have he := h e (List.mem_cons_self _ _)
    cases e <;> simp_all [recvCalls]

/-- C9.  In every run of `main`:
* if `getaddrinfo` fails it is the only call made;
* every `socket` and every `connect` call comes after a `getaddrinfo` that returned 0;
* when `send` is called the connector has returned a handle other than `INVALID_SOCKET`,
  the calls before it are exactly the connector's and the call is on that handle;
* every `recv` comes after the `send` of the whole message, which reported at least the
  `strlen message` bytes of the message;
* `send` is called at most once, and if it reports fewer bytes than the message has,
  or fails, no `recv` is made. -/
theorem main_runs_stages_in_order (env : Env) :
    (env.gai_status ≠ 0 →
        (main env).trace = [Event.getaddrinfo env.host env.port env.gai_status]) ∧
      (∀ a b j h, (main env).trace = a ++ Event.socket j h :: b →
        Event.getaddrinfo env.host env.port 0 ∈ a) ∧
      (∀ a b h j r, (main env).trace = a ++ Event.connect h j r :: b →
        Event.getaddrinfo env.host env.port 0 ∈ a) ∧
      (∀ a b h n r, (main env).trace = a ++ Event.send h n r :: b →
        (create_and_connect_socket env.host env.port env.gai_status env.res).1
            ≠ INVALID_SOCKET ∧
          h = (create_and_connect_socket env.host env.port env.gai_status env.res).1 ∧
          a = (create_and_connect_socket env.host env.port env.gai_status env.res).2) ∧
      (∀ a b h n r, (main env).trace = a ++ Event.recv h n r :: b →
        Event.send (create_and_connect_socket env.host env.port env.gai_status env.res).1
            (strlen message) env.sent ∈ a ∧
          (strlen message : Int) ≤ env.sent) ∧
      sendCalls (main env).trace ≤ 1 ∧
      (env.sent < (strlen message : Int) → recvCalls (main env).trace = 0) := by
  obtain ⟨closing, hcl, hT⟩ := main_trace env
  have hgai : env.gai_status ≠ 0 →
      (create_and_connect_socket env.host env.port env.gai_status env.res) =
        (INVALID_SOCKET, [Event.getaddrinfo env.host env.port env.gai_status]) := by
    intro h
    simp [create_and_connect_socket, h]
  have hfirst := getaddrinfo_first env.host env.port env.gai_status env.res
  have hconn := byConnector_create_and_connect_socket env.host env.port env.gai_status env.res
  have hrecv := byReceiver_receive_loop
    (create_and_connect_socket env.host env.port env.gai_status env.res).1 env.reads env.buffer
    []
  rw [← receive_data] at hrecv
  generalize (create_and_connect_socket env.host env.port env.gai_status env.res) = c at *
  generalize (receive_data c.1 env.buffer env.reads).trace = rt at *
  -- the part of the trace after the send holds receiver events and closes only
  have hrest : ∀ e ∈ (if env.sent < (strlen message : Int) then closing else rt ++ closing),
      e.byReceiver = true ∨ e = Event.closesocket c.1 := by
    intro e he
    split_ifs at he
    · exact Or.inr (hcl e he)
    · rcases List.mem_append.1 he with he | he
      · exact Or.inl (hrecv e he)
      · exact Or.inr (hcl e he)
  generalize (main env).trace = T at *
  refine ⟨?_, ?_, ?_, ?_, ?_, ?_, ?_⟩
  · intro h
    rw [hT, hgai h]
    simp
  · intro a b j h hT1
    rw [hT1] at hT
    have hnot : Event.socket j h ∉ (if c.1 = INVALID_SOCKET then []
        else Event.send c.1 (strlen message) env.sent ::
          if env.sent < (strlen message : Int) then closing else rt ++ closing) := by
      intro hm
      split_ifs at hm with h1 h2
      · simp at hm
      · rcases List.mem_cons.1 hm with hm | hm
        · cases hm
        · rcases hrest _ (by simpa [h2] using hm) with h3 | h3
          · simp [Event.byReceiver] at h3
          · cases h3
      · rcases List.mem_cons.1 hm with hm | hm
        · cases hm
        · rcases hrest _ (by simpa [h2] using hm) with h3 | h3
          · simp [Event.byReceiver] at h3
          · cases h3
    obtain ⟨b1, hb1⟩ := split_left_of_not_mem hT hnot
    exact hfirst a b1 _ (by intro _ _ _ h; cases h) hb1
  · intro a b h j r hT1
    rw [hT1] at hT
    have hnot : Event.connect h j r ∉ (if c.1 = INVALID_SOCKET then []
        else Event.send c.1 (strlen message) env.sent ::
          if env.sent < (strlen message : Int) then closing else rt ++ closing) := by
      intro hm
      split_ifs at hm with h1 h2
      · simp at hm
      · rcases List.mem_cons.1 hm with hm | hm
        · cases hm
        · rcases hrest _ (by simpa [h2] using hm) with h3 | h3
          · simp [Event.byReceiver] at h3
          · cases h3
      · rcases List.mem_cons.1 hm with hm | hm
        · cases hm
        · rcases hrest _ (by simpa [h2] using hm) with h3 | h3
          · simp [Event.byReceiver] at h3
          · cases h3
    obtain ⟨b1, hb1⟩ := split_left_of_not_mem hT hnot
    exact hfirst a b1 _ (by intro _ _ _ h; cases h) hb1
  · intro a b h n r hT1
    rw [hT1] at hT
    have hnot : Event.send h n r ∉ c.2 := by
      intro hm
      have := hconn _ hm
      simp [Event.byConnector] at this
    obtain ⟨a1, ha1, htl⟩ := split_right_of_not_mem hT hnot
    by_cases h1 : c.1 = INVALID_SOCKET
    · simp [h1] at htl
    · rw [if_neg h1] at htl
      cases a1 with
      | nil =>
        simp only [List.nil_append, List.cons.injEq, Event.send.injEq] at htl
        exact ⟨h1, htl.1.1.symm, by simpa using ha1⟩
      | cons z a1 =>
        simp only [List.cons_append, List.cons.injEq] at htl
        have hm : Event.send h n r ∈
            (if env.sent < (strlen message : Int) then closing else rt ++ closing) := by
          rw [htl.2]; simp
        rcases hrest _ hm with h3 | h3
        · simp [Event.byReceiver] at h3
        · cases h3
  · intro a b h n r hT1
    rw [hT1] at hT
    have hnot : Event.recv h n r ∉ c.2 := by
      intro hm
      have := hconn _ hm
      simp [Event.byConnector] at this
    obtain ⟨a1, ha1, htl⟩ := split_right_of_not_mem hT hnot
    by_cases h1 : c.1 = INVALID_SOCKET
    · simp [h1] at htl
    · rw [if_neg h1] at htl
      cases a1 with
      | nil =>
        simp only [List.nil_append, List.cons.injEq, reduceCtorEq, false_and] at htl
      | cons z a1 =>
        simp only [List.cons_append, List.cons.injEq] at htl
        refine ⟨by rw [ha1, ← htl.1]; simp, ?_⟩
        by_contra hlt
        rw [if_pos (not_le.1 hlt)] at htl
        have hm : Event.recv h n r ∈ closing := by rw [htl.2]; simp
        have := hcl _ hm
        cases this
  · rw [hT, sendCalls_append,
      sendCalls_eq_zero c.2 (fun e he s n r h => by
        subst h
        have := hconn _ he
        simp [Event.byConnector] at this)]
    have : sendCalls (if env.sent < (strlen message : Int) then closing
        else rt ++ closing) = 0 := by
      apply sendCalls_eq_zero
      intro e he s n r h
      subst h
      rcases hrest _ he with h3 | h3
      · simp [Event.byReceiver] at h3
      · cases h3
    by_cases h1 : c.1 = INVALID_SOCKET
    · simp [h1, sendCalls]
    · simp [h1, sendCalls, this]
  · intro hlt
    rw [hT, recvCalls_append,
      recvCalls_eq_zero c.2 (fun e he s n r h => by
        subst h
        have := hconn _ he
        simp [Event.byConnector] at this)]
    have : recvCalls closing = 0 := by
      apply recvCalls_eq_zero
      intro e he s n r h
      subst h
      have := hcl _ he
      cases this
    by_cases h1 : c.1 = INVALID_SOCKET
    · simp [h1, recvCalls]
    · simp [h1, hlt, recvCalls, this]

/-- Witness for C9: an unresolvable host, where `getaddrinfo` is the only call. -/
theorem main_runs_stages_in_order_witness :
    demoUnresolvedEnv.gai_status ≠ 0 ∧
      (main demoUnresolvedEnv).trace =
        [Event.getaddrinfo demoUnresolvedEnv.host demoUnresolvedEnv.port
          demoUnresolvedEnv.gai_status] :=
  ⟨by decide, (main_runs_stages_in_order demoUnresolvedEnv).1 (by decide)⟩

end ClientServer
